import Mathlib

/-!
Verification development for the power-monitor backend.

Shallow embedding conventions:
* timestamps are integers (milliseconds since the Unix epoch, UTC) unless noted;
  Python `datetime` component truncation (`replace(second=0, ...)`) is modelled
  by floor division (`Int.ediv` / `Int.emod`, which match Python `//` and `%`);
* floating-point quantities (kWh counters, electrical readings, poll intervals)
  are modelled as rationals;
* SQL queries are modelled as list transformations over an in-memory table;
  `ORDER BY` is an insertion sort on the ordering key, `GROUP BY` groups rows
  by the grouping key;
* `while` loops that advance a cursor are modelled with an explicit iteration
  bound computed from the loop parameters (the Python loops terminate for the
  same reason: each step advances the cursor by a positive width).
-/

namespace PowerMonitor

/-! Python string primitives (`str.endswith`, slicing, `int(...)`) modelled
over the character sequence of the string. -/

/-- Python `s.endswith(suffix)`. -/
def strEndsWith (s suffix : String) : Bool :=
  List.isSuffixOf suffix.data s.data

/-- Python `s[:-n]` (for `0 < n ≤ len(s)`). -/
def strDropRight (s : String) (n : Nat) : String :=
  String.mk (s.data.take (s.data.length - n))

/-- Python `int(s)` for non-negative decimal literals; `none` where Python
raises `ValueError` (the exception propagates out of the query in Python; no
theorem exercises that case). -/
def strToNat? (s : String) : Option Nat :=
  if s.data ≠ [] ∧ s.data.all (fun c => c.isDigit) then
    some (s.data.foldl (fun n c => n * 10 + (c.toNat - 48)) 0)
  else none

/-- One row of the `energy_readings` table, as returned by `get_energy_readings`
(`timestamp` already converted to epoch milliseconds, as the delta calculators
do internally). -/
structure ERow where
  meter_id : String
  phase : String
  time_ms : Int
  total_kwh : ℚ
deriving Repr, DecidableEq, Inhabited

/-- One aggregated energy bucket as produced by the delta calculators:
`timestamp` is the bucket start (epoch ms) and `energy_kwh` the bucket delta. -/
structure DRow where
  ts_ms : Int
  energy_kwh : ℚ
deriving Repr, DecidableEq, Inhabited

/-- A half-open time bucket `[start_ms, end_ms)`. -/
structure Bucket where
  start_ms : Int
  end_ms : Int
deriving Repr, DecidableEq, Inhabited

/-- Insertion step of a stable ascending sort on an integer key
(models Python `list.sort(key=...)` / SQL `ORDER BY key ASC`). -/
def insertAscByKey (key : α → Int) (a : α) : List α → List α
  | [] => [a]
  | b :: l => if key a ≤ key b then a :: b :: l else b :: insertAscByKey key a l

/-- Stable ascending sort on an integer key. -/
def sortAscByKey (key : α → Int) (l : List α) : List α :=
  l.foldr (insertAscByKey key) []

/-- Insertion step of a stable descending sort on an integer key
(models SQL `ORDER BY key DESC`). -/
def insertDescByKey (key : α → Int) (a : α) : List α → List α
  | [] => [a]
  | b :: l => if key b ≤ key a then a :: b :: l else b :: insertDescByKey key a l

/-- Stable descending sort on an integer key. -/
def sortDescByKey (key : α → Int) (l : List α) : List α :=
  l.foldr (insertDescByKey key) []

/-- The loop of Python's `bisect.bisect_left` on a list of integers:
binary search for the insertion point of `x`, maintaining `lo`/`hi` bounds.
The fuel argument bounds the number of iterations; `hi - lo` shrinks every
step, so `a.length` iterations always suffice. -/
def bisectLoop (a : List Int) (x : Int) : Nat → Nat → Nat → Nat
  | lo, _hi, 0 => lo
  | lo, hi, fuel + 1 =>
    if lo < hi then
      if a.getD ((lo + hi) / 2) 0 < x then bisectLoop a x ((lo + hi) / 2 + 1) hi fuel
      else bisectLoop a x lo ((lo + hi) / 2) fuel
    else lo

/-- `bisect.bisect_left(a, x)` from `Database._interpolate_kwh_at_time`. -/
def bisect_left (a : List Int) (x : Int) : Nat :=
  bisectLoop a x 0 a.length a.length

/-- `Database._interpolate_kwh_at_time`: estimate the cumulative kWh counter at
`target_time_ms` by binary-searching the time-sorted `readings_with_ms` list and
linearly interpolating between the bracketing pair; clamp to the first/last
sample when the target falls outside the sampled range. -/
def interpolate_kwh_at_time (readings_with_ms : List ERow) (target_time_ms : Int) :
    Option ℚ :=
  if readings_with_ms.isEmpty then none
  else
    let times := readings_with_ms.map (fun r => r.time_ms)
    let idx := bisect_left times target_time_ms
    if idx < readings_with_ms.length ∧ times.getD idx 0 = target_time_ms then
      some ((readings_with_ms.getD idx default).total_kwh)
    else if idx = 0 then
      some ((readings_with_ms.getD 0 default).total_kwh)
    else if readings_with_ms.length ≤ idx then
      some ((readings_with_ms.getLast?.getD default).total_kwh)
    else
      let before := readings_with_ms.getD (idx - 1) default
      let after := readings_with_ms.getD idx default
      let time_diff : Int := after.time_ms - before.time_ms
      let kwh_diff : ℚ := after.total_kwh - before.total_kwh
      if time_diff = 0 then some before.total_kwh
      else
        let ratio : ℚ := ((target_time_ms - before.time_ms : Int) : ℚ) / (time_diff : ℚ)
        some (before.total_kwh + kwh_diff * ratio)

/-! ### Bucket-boundary arithmetic

The Python code floors `datetime` values componentwise
(`replace(second=0, microsecond=0)`, then per-resolution `replace(...)`).
On epoch milliseconds these operations are floor divisions. -/

/-- `replace(second=0, microsecond=0)`: truncate to the minute. -/
def minuteTrunc (t : Int) : Int := (t / 60000) * 60000

/-- `replace(minute=0, second=0, microsecond=0)`: truncate to the hour. -/
def hourTrunc (t : Int) : Int := (t / 3600000) * 3600000

/-- `replace(hour=0, minute=0, second=0, microsecond=0)`: truncate to the day. -/
def dayTrunc (t : Int) : Int := (t / 86400000) * 86400000

/-- `current.replace(minute=(current.minute // n) * n)` after truncating to the
minute: floor the minute-of-hour to a multiple of `n`.
(For `n = 0` Python raises `ZeroDivisionError`; `(_ / 0) = 0` here, but no
theorem instantiates `n = 0`.) -/
def minuteFloor (t : Int) (n : Nat) : Int :=
  let tm := minuteTrunc t
  let moh := (((tm % 3600000)) / 60000)
  tm + ((moh / (n : Int)) * (n : Int) - moh) * 60000

/-- `current.replace(hour=(current.hour // n) * n)` after truncating to the
hour: floor the hour-of-day to a multiple of `n`. -/
def hourFloor (t : Int) (n : Nat) : Int :=
  let th := hourTrunc t
  let hod := (((th % 86400000)) / 3600000)
  th + ((hod / (n : Int)) * (n : Int) - hod) * 3600000

/-- `days_since_sunday` computed from `current.weekday()` (Monday = 0):
epoch day 0 (1970-01-01) was a Thursday, weekday 3. -/
def daysSinceSunday (epochDay : Int) : Int :=
  let wd := ((epochDay + 3) % 7)
  if wd ≠ 6 then wd + 1 else 0

/-- Round down to the most recent Sunday at midnight (the `1week` anchor). -/
def weekFloor (t : Int) : Int :=
  dayTrunc t - daysSinceSunday ((t / 86400000)) * 86400000

/-- Days since 1970-01-01 of the proleptic-Gregorian civil date `(y, m, d)`
(the calendar Python `datetime` uses); standard civil-calendar conversion. -/
def daysFromCivil (y m d : Int) : Int :=
  let yAdj := if m ≤ 2 then y - 1 else y
  let era := (yAdj / 400)
  let yoe := yAdj - era * 400
  let mp := ((m + 9) % 12)
  let doy := ((153 * mp + 2) / 5) + d - 1
  let doe := yoe * 365 + (yoe / 4) - (yoe / 100) + doy
  era * 146097 + doe - 719468

/-- Civil date `(y, m, d)` of a day count since 1970-01-01 (inverse of
`daysFromCivil`). -/
def civilFromDays (z : Int) : Int × Int × Int :=
  let z2 := z + 719468
  let era := (z2 / 146097)
  let doe := z2 - era * 146097
  let yoe := ((doe - (doe / 1460) + (doe / 36524) - (doe / 146096)) / 365)
  let y := yoe + era * 400
  let doy := doe - (365 * yoe + (yoe / 4) - (yoe / 100))
  let mp := ((5 * doy + 2) / 153)
  let d := doy - ((153 * mp + 2) / 5) + 1
  let m := mp + (if mp < 10 then 3 else -9)
  (if m ≤ 2 then y + 1 else y, m, d)

/-- Epoch milliseconds of midnight on the first of month `(y, m)`. -/
def monthStartMs (y m : Int) : Int := daysFromCivil y m 1 * 86400000

/-- `current.replace(day=1, hour=0, minute=0, second=0, microsecond=0)` as the
`(year, month)` pair of `t`. -/
def monthOf (t : Int) : Int × Int :=
  let c := civilFromDays ((t / 86400000))
  (c.1, c.2.1)

/-- The fixed-width bucket loop `while current <= end_time: append
[current, current+width); current += width`, with an explicit iteration
bound. -/
def mkBucketsLoop (width t1_ms : Int) : Nat → Int → List Bucket
  | 0, _ => []
  | fuel + 1, current =>
    if current ≤ t1_ms then
      ⟨current, current + width⟩ :: mkBucketsLoop width t1_ms fuel (current + width)
    else []

/-- Fixed-width buckets of width `width` starting at `start0`, last bucket the
one whose start is still `≤ t1_ms`.  The iteration bound is exact for
`width ≥ 1` and `start0 ≤ t1_ms`. -/
def mkBuckets (width start0 t1_ms : Int) : List Bucket :=
  mkBucketsLoop width t1_ms ((t1_ms - start0).toNat / width.toNat + 1) start0

/-- The calendar-month bucket loop: `while current <= end_time`, advancing
`current` by one calendar month (`replace(month=month+1)`, rolling the year at
December). -/
def mkMonthBucketsLoop (t1_ms : Int) : Nat → Int → Int → List Bucket
  | 0, _, _ => []
  | fuel + 1, y, m =>
    let start := monthStartMs y m
    if start ≤ t1_ms then
      let ym2 : Int × Int := if m = 12 then (y + 1, 1) else (y, m + 1)
      ⟨start, monthStartMs ym2.1 ym2.2⟩ :: mkMonthBucketsLoop t1_ms fuel ym2.1 ym2.2
    else []

/-- Calendar-month buckets from the month containing `t0_ms` while the bucket
start is `≤ t1_ms` (months are at least 28 days, bounding the iterations). -/
def mkMonthBuckets (t0_ms t1_ms : Int) : List Bucket :=
  let ym := monthOf t0_ms
  mkMonthBucketsLoop t1_ms ((t1_ms - monthStartMs ym.1 ym.2).toNat / 2419200000 + 1) ym.1 ym.2

/-- Parsed aggregation resolution; the Python code dispatches on the string
suffix (`endswith("min")` with `int(s[:-3])`, etc.) in each consumer, which is
factored here through `parseAggInterp` / `parseAggWithout` / `parseAggSql`. -/
inductive Agg where
  | min (n : Nat)
  | hour (n : Nat)
  | day (n : Nat)
  | week
  | month
deriving Repr, DecidableEq

/-- Bucket width in milliseconds (0 for calendar months, which have no fixed
width). -/
def Agg.width_ms : Agg → Int
  | .min n => n * 60000
  | .hour n => n * 3600000
  | .day n => n * 86400000
  | .week => 7 * 86400000
  | .month => 0

/-- The per-resolution initial cursor value: `start_time` truncated to the
minute and then floored as each branch of the Python bucket loops does.
(Day buckets are anchored at the query's own day, not at an epoch multiple.) -/
def aggFloor (a : Agg) (t : Int) : Int :=
  match a with
  | .min n => minuteFloor t n
  | .hour n => hourFloor t n
  | .day _ => dayTrunc t
  | .week => weekFloor t
  | .month => monthStartMs (monthOf t).1 (monthOf t).2

/-- The bucket list a delta calculator builds for resolution `a` over the query
range `[t0_ms, t1_ms]`. -/
def bucketsFor (a : Agg) (t0_ms t1_ms : Int) : List Bucket :=
  match a with
  | .month => mkMonthBuckets t0_ms t1_ms
  | _ => mkBuckets a.width_ms (aggFloor a t0_ms) t1_ms

/-- The suffix dispatch of `_calculate_energy_deltas_with_interpolation`
(branches for `min`, `hour`, `day`, `1week`, `1month`; anything else builds no
buckets).  A non-numeric prefix raises `ValueError` in Python; here it parses
to `none` — no theorem exercises that case. -/
def parseAggInterp (s : String) : Option Agg :=
  if strEndsWith s "min" then (strToNat? (strDropRight s 3)).map Agg.min
  else if strEndsWith s "hour" then (strToNat? (strDropRight s 4)).map Agg.hour
  else if strEndsWith s "day" then (strToNat? (strDropRight s 3)).map Agg.day
  else if s = "1week" then some Agg.week
  else if s = "1month" then some Agg.month
  else none

/-- The suffix dispatch of `_calculate_energy_deltas_without_interpolation`,
which has no `min` branch (minute resolutions build no buckets there). -/
def parseAggWithout (s : String) : Option Agg :=
  if strEndsWith s "hour" then (strToNat? (strDropRight s 4)).map Agg.hour
  else if strEndsWith s "day" then (strToNat? (strDropRight s 3)).map Agg.day
  else if s = "1week" then some Agg.week
  else if s = "1month" then some Agg.month
  else none

/-- The readings that fall inside a bucket (`start_ms <= t < end_ms`),
in input order. -/
def bucketReadings (readings : List ERow) (b : Bucket) : List ERow :=
  readings.filter (fun r =>
    decide (b.start_ms ≤ r.time_ms) && decide (r.time_ms < b.end_ms))

/-- The per-bucket first/last differencing of
`_calculate_energy_deltas_without_interpolation`: within each bucket take the
first and last reading (readings are time-sorted), append the delta when it is
non-negative, drop the bucket otherwise (counter reset) or when it has no
readings. -/
def deltasFirstLast (readings : List ERow) (buckets : List Bucket) : List DRow :=
  buckets.filterMap (fun b =>
    match (bucketReadings readings b).head?, (bucketReadings readings b).getLast? with
    | some f, some l =>
      if 0 ≤ l.total_kwh - f.total_kwh then
        some ⟨b.start_ms, l.total_kwh - f.total_kwh⟩
      else none
    | _, _ => none)

/-- The per-bucket interpolation differencing of
`_calculate_energy_deltas_with_interpolation`: delta = interpolated value at
the bucket end minus interpolated value at the bucket start; negative deltas
(counter reset) are dropped. -/
def deltasInterp (readings : List ERow) (buckets : List Bucket) : List DRow :=
  buckets.filterMap (fun b =>
    match interpolate_kwh_at_time readings b.start_ms,
          interpolate_kwh_at_time readings b.end_ms with
    | some s, some e =>
      if 0 ≤ e - s then some ⟨b.start_ms, e - s⟩ else none
    | _, _ => none)

/-- `Database._calculate_energy_deltas_without_interpolation`. -/
def calc_energy_deltas_without_interpolation (energy_readings : List ERow)
    (aggregation : String) (start_time_ms end_time_ms : Int) : List DRow :=
  if energy_readings.length < 2 then []
  else
    let readings_with_ms := sortAscByKey (fun r => r.time_ms) energy_readings
    let buckets :=
      match parseAggWithout aggregation with
      | some a => bucketsFor a start_time_ms end_time_ms
      | none => []
    deltasFirstLast readings_with_ms buckets

/-- `Database._calculate_energy_deltas_with_interpolation`. -/
def calc_energy_deltas_with_interpolation (energy_readings : List ERow)
    (aggregation : String) (start_time_ms end_time_ms : Int) : List DRow :=
  if energy_readings.length < 2 then []
  else
    let readings_with_ms := sortAscByKey (fun r => r.time_ms) energy_readings
    let buckets :=
      match parseAggInterp aggregation with
      | some a => bucketsFor a start_time_ms end_time_ms
      | none => []
    deltasInterp readings_with_ms buckets

/-! ### Resolution selection (`auto`) -/

/-- `nice_buckets_minutes` from `Database._calculate_optimal_aggregation`. -/
def nice_buckets_minutes : List Nat :=
  [1, 2, 3, 5, 10, 15, 20, 30, 60, 120, 180, 360, 720, 1440, 10080, 43200]

/-- `nice_bucket_names` from `Database._calculate_optimal_aggregation`. -/
def nice_bucket_names : List String :=
  ["1min", "2min", "3min", "5min", "10min", "15min", "20min", "30min",
   "1hour", "2hour", "3hour", "6hour", "12hour", "1day", "1week", "1month"]

/-- The ladder as (width in minutes, name) pairs. -/
def niceLadder : List (Nat × String) := nice_buckets_minutes.zip nice_bucket_names

/-- `Database._calculate_optimal_aggregation`: `none` when the row count is at
most the target; otherwise the first ladder member whose width (minutes) is at
least `spanMinutes / targetPoints`, falling back to `1month`. -/
def calculate_optimal_aggregation (count : Nat) (time_span_seconds : ℚ)
    (target_points : Nat) : String :=
  if count ≤ target_points then "none"
  else
    let time_span_minutes := time_span_seconds / 60
    let optimal_minutes := time_span_minutes / (target_points : ℚ)
    match niceLadder.find? (fun p => decide (optimal_minutes ≤ (p.1 : ℚ))) with
    | some p => p.2
    | none => "1month"

/-! ### Energy query (`Database.get_energy_aggregated`) -/

/-- `Database.get_energy_readings`: range scan of the `energy_readings` table
filtered by meter and (unless empty or `"ALL"`) phase, `ORDER BY timestamp
ASC`; `BETWEEN` is inclusive at both ends. -/
def get_energy_readings (table : List ERow) (meter_id : String)
    (start_time_ms end_time_ms : Int) (phase : String) : List ERow :=
  sortAscByKey (fun r => r.time_ms)
    (table.filter (fun r =>
      decide (r.meter_id = meter_id) &&
      (if phase ≠ "" ∧ phase ≠ "ALL" then decide (r.phase = phase) else true) &&
      decide (start_time_ms ≤ r.time_ms) && decide (r.time_ms ≤ end_time_ms)))

/-- Result record of `Database.get_energy_aggregated`. -/
structure EnergyAggResult where
  aggregated : List DRow
  raw_total_kwh : ℚ
  raw_readings_count : Nat
  aggregation_applied : String
deriving Repr, DecidableEq

/-- `Database.get_energy_aggregated`: raw total = last minus first raw reading
(when at least two), `auto` resolved against the energy row count, and deltas
computed by interpolation for minute resolutions, first/last otherwise. -/
def get_energy_aggregated (table : List ERow) (meter_id : String)
    (start_time_ms end_time_ms : Int) (phase : String) (aggregation : String) :
    EnergyAggResult :=
  let raw_readings := get_energy_readings table meter_id start_time_ms end_time_ms phase
  let raw_total : ℚ :=
    if 2 ≤ raw_readings.length then
      ((raw_readings.getLast?.getD default).total_kwh -
        (raw_readings.head?.getD default).total_kwh)
    else 0
  let time_span_seconds : ℚ := ((end_time_ms - start_time_ms : Int) : ℚ) / 1000
  let applied :=
    if aggregation = "auto" then
      calculate_optimal_aggregation raw_readings.length time_span_seconds 10000
    else aggregation
  let aggregated :=
    if applied ≠ "none" ∧ 2 ≤ raw_readings.length then
      if strEndsWith applied "min" then
        calc_energy_deltas_with_interpolation raw_readings applied start_time_ms end_time_ms
      else
        calc_energy_deltas_without_interpolation raw_readings applied start_time_ms end_time_ms
    else []
  ⟨aggregated, raw_total, raw_readings.length, applied⟩

/-! ### Historical instantaneous readings (`Database.get_historical_readings`) -/

/-- One row of the `readings` table (`timestamp` as epoch ms). -/
structure Reading where
  meter_id : String
  time_ms : Int
  voltage_rms : ℚ
  current_rms : ℚ
  active_power : ℚ
  reactive_power : ℚ
  apparent_power : ℚ
  power_factor : ℚ
  frequency : ℚ
deriving Repr, DecidableEq, Inhabited

/-- SQL `AVG` over a nonempty group. -/
def avgQ (l : List ℚ) : ℚ := l.sum / (l.length : ℚ)

/-- The SQL grouping expression of `_parse_aggregation_to_sql` evaluated on a
row timestamp in epoch seconds (`strftime('%s', ...)` truncates to seconds).
The `%Y-%m-%d %H:00:00` / `%Y-%m-%d 00:00:00` civil floors coincide with
epoch-multiple floors in UTC, since the epoch starts at midnight. -/
def sqlBucketKeySec (a : Agg) (t_s : Int) : Int :=
  match a with
  | .min n => (t_s / ((n : Int) * 60)) * ((n : Int) * 60)
  | .hour n => (t_s / ((n : Int) * 3600)) * ((n : Int) * 3600)
  | .day n => (t_s / ((n : Int) * 86400)) * ((n : Int) * 86400)
  | .week =>
    let shifted := t_s - (((t_s / 86400) + 4) % 7) * 86400
    (shifted / 86400) * 86400
  | .month =>
    let ym := monthOf (t_s * 1000)
    daysFromCivil ym.1 ym.2 1 * 86400

/-- The suffix dispatch of `_parse_aggregation_to_sql` (`none` and
unrecognised strings yield no grouping, which makes the caller fall back to
the raw scan). -/
def parseAggSql (s : String) : Option Agg :=
  if s = "none" then none
  else if strEndsWith s "min" then (strToNat? (strDropRight s 3)).map Agg.min
  else if strEndsWith s "hour" then (strToNat? (strDropRight s 4)).map Agg.hour
  else if strEndsWith s "day" then (strToNat? (strDropRight s 3)).map Agg.day
  else if s = "1week" then some Agg.week
  else if s = "1month" then some Agg.month
  else none

/-- One row of an aggregated historical query: the grouping timestamp (epoch
seconds, the `datetime(...)` string of the SQL) plus per-field averages. -/
structure AggReadingRow where
  time_s : Int
  meter_id : String
  voltage_rms : ℚ
  current_rms : ℚ
  active_power : ℚ
  reactive_power : ℚ
  apparent_power : ℚ
  power_factor : ℚ
  frequency : ℚ
deriving Repr, DecidableEq

/-- A result row of `get_historical_readings`: either a raw reading or an
aggregated bucket row (the Python code returns dicts of either shape). -/
inductive HistRow where
  | raw : Reading → HistRow
  | agg : AggReadingRow → HistRow
deriving Repr, DecidableEq

/-- The timestamp of a result row in epoch ms. -/
def HistRow.ts_ms : HistRow → Int
  | .raw r => r.time_ms
  | .agg a => a.time_s * 1000

/-- `LIMIT` with Python truthiness: `limit=None` and `limit=0` mean no limit. -/
def applyLimit (limit : Option Nat) (l : List α) : List α :=
  match limit with
  | some n => if n = 0 then l else l.take n
  | none => l

/-- `Database.get_reading_count`: `COUNT(*)` over the meter and inclusive time
range. -/
def get_reading_count (table : List Reading) (meter_id : String)
    (start_time_ms end_time_ms : Int) : Nat :=
  (table.filter (fun r =>
    decide (r.meter_id = meter_id) &&
    decide (start_time_ms ≤ r.time_ms) && decide (r.time_ms ≤ end_time_ms))).length

/-- Result record of `Database.get_historical_readings`. -/
structure HistQueryResult where
  readings : List HistRow
  aggregation_applied : String
  original_count : Option Nat
deriving Repr, DecidableEq

/-- `Database.get_historical_readings`: `auto` resolves the resolution from the
row count; `none` (or an unparseable resolution) is a raw scan ordered
time-descending; otherwise rows are grouped by the resolution's SQL bucket
expression, averaged per field, ordered by bucket timestamp descending; the
`LIMIT` applies after ordering. -/
def get_historical_readings (table : List Reading) (meter_id : String)
    (start_time_ms end_time_ms : Int) (limit : Option Nat) (aggregation : String) :
    HistQueryResult :=
  let inRange := table.filter (fun r =>
    decide (r.meter_id = meter_id) &&
    decide (start_time_ms ≤ r.time_ms) && decide (r.time_ms ≤ end_time_ms))
  let time_span_seconds : ℚ := ((end_time_ms - start_time_ms : Int) : ℚ) / 1000
  let applied :=
    if aggregation = "auto" then
      calculate_optimal_aggregation
        (get_reading_count table meter_id start_time_ms end_time_ms)
        time_span_seconds 10000
    else aggregation
  let original_count : Option Nat :=
    if aggregation = "auto" then
      some (get_reading_count table meter_id start_time_ms end_time_ms)
    else none
  let rawScan : List HistRow :=
    applyLimit limit (sortDescByKey (fun r => r.time_ms) inRange) |>.map HistRow.raw
  let rows :=
    if applied = "none" then rawScan
    else
      match parseAggSql applied with
      | none => rawScan
      | some a =>
        let key := fun (r : Reading) => sqlBucketKeySec a ((r.time_ms / 1000))
        let keys := sortDescByKey id ((inRange.map key).dedup)
        applyLimit limit (keys.map (fun k =>
          let grp := inRange.filter (fun r => decide (key r = k))
          HistRow.agg
            { time_s := k
              meter_id := meter_id
              voltage_rms := avgQ (grp.map (fun r => r.voltage_rms))
              current_rms := avgQ (grp.map (fun r => r.current_rms))
              active_power := avgQ (grp.map (fun r => r.active_power))
              reactive_power := avgQ (grp.map (fun r => r.reactive_power))
              apparent_power := avgQ (grp.map (fun r => r.apparent_power))
              power_factor := avgQ (grp.map (fun r => r.power_factor))
              frequency := avgQ (grp.map (fun r => r.frequency)) }))
  ⟨rows, applied, original_count⟩

/-! ### Retention compaction (`Database.aggregate_old_data`) -/

/-- One stored row of the `readings` table including its autoincrement id. -/
structure RRow where
  id : Nat
  time_ms : Int
  meter_id : String
  voltage_rms : ℚ
  current_rms : ℚ
  active_power : ℚ
  reactive_power : ℚ
  apparent_power : ℚ
  power_factor : ℚ
  frequency : ℚ
deriving Repr, DecidableEq, Inhabited

/-- `CAST(strftime('%H', t) AS INTEGER)`: the hour of the day. -/
def hourOfDay (t : Int) : Int := (((t % 86400000)) / 3600000)

/-- `Database.aggregate_old_data`: first `INSERT ... SELECT` one averaged row
per (meter, day, hour-group) of the rows older than the cutoff that have more
than one row (`HAVING COUNT(*) > 1`), timestamped
`datetime(strftime('%Y-%m-%d %H:00:00', t), '+' || (hour(t)/h*h) || ' hours')`;
then `DELETE` the rows older than the cutoff whose id is not the `MAX(id)` of
their (meter, hour) group.  Inserted rows receive fresh autoincrement ids.
The bare `timestamp` column inside the grouped `SELECT` is taken from the
group's first row (SQLite leaves the choice unspecified; for
`aggregation_hours = 1` — the only call site — every row of a group yields the
same value). -/
def aggregate_old_data (table : List RRow) (cutoff_ms : Int)
    (aggregation_hours : Nat) : List RRow :=
  let h : Int := aggregation_hours
  let old := table.filter (fun r => decide (r.time_ms < cutoff_ms))
  let gkey := fun (r : RRow) =>
    (r.meter_id, (r.time_ms / 86400000), ((hourOfDay r.time_ms) / h))
  let maxId := table.foldr (fun r acc => max r.id acc) 0
  let multiKeys := ((old.map gkey).dedup).filter
    (fun k => decide (1 < (old.filter (fun r => decide (gkey r = k))).length))
  let inserted := multiKeys.enum.map (fun ik =>
    let grp := old.filter (fun r => decide (gkey r = ik.2))
    let t := (grp.head?.getD default).time_ms
    { id := maxId + 1 + ik.1
      time_ms := hourTrunc t + ((hourOfDay t) / h) * h * 3600000
      meter_id := (grp.head?.getD default).meter_id
      voltage_rms := avgQ (grp.map (fun r => r.voltage_rms))
      current_rms := avgQ (grp.map (fun r => r.current_rms))
      active_power := avgQ (grp.map (fun r => r.active_power))
      reactive_power := avgQ (grp.map (fun r => r.reactive_power))
      apparent_power := avgQ (grp.map (fun r => r.apparent_power))
      power_factor := avgQ (grp.map (fun r => r.power_factor))
      frequency := avgQ (grp.map (fun r => r.frequency)) })
  let table2 := table ++ inserted
  let old2 := table2.filter (fun r => decide (r.time_ms < cutoff_ms))
  let keepKey := fun (r : RRow) => (r.meter_id, hourTrunc r.time_ms)
  let keepIds := ((old2.map keepKey).dedup).map (fun k =>
    (old2.filter (fun r => decide (keepKey r = k))).foldr (fun r acc => max r.id acc) 0)
  table2.filter (fun r => !decide (r.time_ms < cutoff_ms) || decide (r.id ∈ keepIds))

/-! ### Poll loop failure accounting (`MeterPoller._poll_meter`,
`EnergyPoller._poll_energy`) -/

/-- One iteration of a poll loop body: on success the consecutive-failure
counter resets to 0, on failure it increments; if the counter has reached
`max_failures` the loop sleeps the backoff interval and resets the counter,
otherwise it sleeps the normal interval.  Returns (new counter, sleep). -/
def poll_iteration (max_failures : Nat) (normal_interval backoff_interval : ℚ)
    (consecutive_failures : Nat) (success : Bool) : Nat × ℚ :=
  let f := if success then 0 else consecutive_failures + 1
  if max_failures ≤ f then (0, backoff_interval) else (f, normal_interval)

/-- `MeterPoller._poll_meter`: `max_failures = 5`, backoff sleep 30 s. -/
def meter_poll_iteration (poll_interval : ℚ) : Nat → Bool → Nat × ℚ :=
  poll_iteration 5 poll_interval 30

/-- `EnergyPoller._poll_energy`: `max_failures = 5`, backoff sleep 60 s. -/
def energy_poll_iteration (energy_poll_interval : ℚ) : Nat → Bool → Nat × ℚ :=
  poll_iteration 5 energy_poll_interval 60

/-- Run a poll loop over a list of fetch outcomes, collecting the sleeps. -/
def poll_run (step : Nat → Bool → Nat × ℚ) : Nat → List Bool → Nat × List ℚ
  | f, [] => (f, [])
  | f, o :: os =>
    let r := step f o
    let rest := poll_run step r.1 os
    (rest.1, r.2 :: rest.2)

/-! ### Poller supervisor control path (`MeterPoller.remove_meter`,
`EnergyPoller.remove_meter`) -/

/-- One row of the `meters` table. -/
structure MeterRow where
  meter_id : String
  ip_address : String
  name : Option String
  location : Option String
  enabled : Bool
  poll_interval : ℚ
  energy_poll_interval : ℚ
  last_seen : Int
deriving Repr, DecidableEq

/-- `Database.register_meter`: `INSERT ... ON CONFLICT(meter_id) DO UPDATE SET
ip_address=excluded.ip_address, last_seen=excluded.last_seen` — a fresh id
inserts the full row, an existing id only gets its `ip_address` and
`last_seen` replaced. -/
def register_meter (meters : List MeterRow) (m : MeterRow) : List MeterRow :=
  if meters.any (fun r => decide (r.meter_id = m.meter_id)) then
    meters.map (fun r =>
      if r.meter_id = m.meter_id then
        { r with ip_address := m.ip_address, last_seen := m.last_seen }
      else r)
  else meters ++ [m]

/-- A synthetic minute-spaced cumulative series with one counter reset at
t = 180000 (the counter drops from 2 back to 0). -/
def c2_reset_series : List ERow :=
  [⟨"m", "A", 0, 0⟩, ⟨"m", "A", 60000, 1⟩, ⟨"m", "A", 120000, 2⟩,
   ⟨"m", "A", 180000, 0⟩, ⟨"m", "A", 240000, 1⟩]

/-- The equivalent series without a reset. -/
def c2_no_reset_series : List ERow :=
  [⟨"m", "A", 0, 0⟩, ⟨"m", "A", 60000, 1⟩, ⟨"m", "A", 120000, 2⟩,
   ⟨"m", "A", 180000, 3⟩, ⟨"m", "A", 240000, 4⟩]

/-- The C8 witness table: two readings with a counter reset between them. -/
def c8_table : List ERow := [⟨"m", "A", 0, 5⟩, ⟨"m", "A", 60000, 3⟩]

/-- The C6 failing store: one meter with two raw rows in the 13:00 hour of
1970-01-01 (46800000 ms = 13:00, 48600000 ms = 13:30), both older than the
cutoff. -/
def c6_table : List RRow :=
  [⟨1, 46800000, "m", 10, 0, 0, 0, 0, 0, 0⟩,
   ⟨2, 48600000, "m", 20, 0, 0, 0, 0, 0, 0⟩]

/-- Three minute-spaced readings for the C5 witness. -/
def c5_series : List ERow :=
  [⟨"m", "A", 0, 0⟩, ⟨"m", "A", 60000, 1⟩, ⟨"m", "A", 120000, 2⟩]

/-! ## Lemma infrastructure -/

theorem insertAscByKey_perm (key : α → Int) (a : α) (l : List α) :
    (insertAscByKey key a l).Perm (a :: l) := by
  induction l with
  | nil => exact List.Perm.refl _
  | cons b l ih =>
    simp only [insertAscByKey]
    split
    · exact List.Perm.refl _
    · exact (ih.cons b).trans (List.Perm.swap a b l)

theorem sortAscByKey_perm (key : α → Int) (l : List α) :
    (sortAscByKey key l).Perm l := by
  induction l with
  | nil => exact List.Perm.refl _
  | cons a l ih => exact (insertAscByKey_perm key a _).trans (ih.cons a)

theorem pairwise_insertAscByKey (key : α → Int) (a : α) (l : List α)
    (h : l.Pairwise (fun x y => key x ≤ key y)) :
    (insertAscByKey key a l).Pairwise (fun x y => key x ≤ key y) := by
  induction l with
  | nil => simp [insertAscByKey]
  | cons b l ih =>
    rw [List.pairwise_cons] at h
    simp only [insertAscByKey]
    split
    · rename_i hab
      refine List.Pairwise.cons ?_ (List.Pairwise.cons h.1 h.2)
      intro x hx
      rcases List.mem_cons.mp hx with rfl | hx
      · exact hab
      · exact le_trans hab (h.1 x hx)
    · rename_i hab
      refine List.Pairwise.cons ?_ (ih h.2)
      intro x hx
      rcases List.mem_cons.mp (((insertAscByKey_perm key a l).mem_iff).mp hx) with rfl | hm
      · omega
      · exact h.1 x hm

theorem sortAscByKey_pairwise (key : α → Int) (l : List α) :
    (sortAscByKey key l).Pairwise (fun x y => key x ≤ key y) := by
  induction l with
  | nil => simp [sortAscByKey]
  | cons a l ih => exact pairwise_insertAscByKey key a _ ih

theorem sortAscByKey_eq_self (key : α → Int) (l : List α)
    (h : l.Pairwise (fun x y => key x ≤ key y)) : sortAscByKey key l = l := by
  induction l with
  | nil => rfl
  | cons a l ih =>
    rw [List.pairwise_cons] at h
    show insertAscByKey key a (sortAscByKey key l) = a :: l
    rw [ih h.2]
    cases l with
    | nil => rfl
    | cons b l2 =>
      simp only [insertAscByKey]
      rw [if_pos (h.1 b (List.mem_cons_self b l2))]

theorem mem_deltasFirstLast {readings : List ERow} {buckets : List Bucket} {d : DRow} :
    d ∈ deltasFirstLast readings buckets ↔
      ∃ b ∈ buckets, ∃ f l,
        (bucketReadings readings b).head? = some f ∧
        (bucketReadings readings b).getLast? = some l ∧
        0 ≤ l.total_kwh - f.total_kwh ∧
        d = ⟨b.start_ms, l.total_kwh - f.total_kwh⟩ := by
  rw [deltasFirstLast, List.mem_filterMap]
  constructor
  · rintro ⟨b, hb, hf⟩
    rcases hh : (bucketReadings readings b).head? with _ | f
    · simp [hh] at hf
    rcases hl : (bucketReadings readings b).getLast? with _ | l
    · simp [hh, hl] at hf
    rw [hh, hl] at hf
    simp only at hf
    split at hf
    · exact ⟨b, hb, f, l, hh, hl, by assumption, (Option.some_inj.mp hf).symm⟩
    · exact absurd hf (by simp)
  · rintro ⟨b, hb, f, l, hh, hl, hnn, rfl⟩
    refine ⟨b, hb, ?_⟩
    rw [hh, hl]
    simp only
    rw [if_pos hnn]

theorem mem_deltasInterp {readings : List ERow} {buckets : List Bucket} {d : DRow} :
    d ∈ deltasInterp readings buckets ↔
      ∃ b ∈ buckets, ∃ s e : ℚ,
        interpolate_kwh_at_time readings b.start_ms = some s ∧
        interpolate_kwh_at_time readings b.end_ms = some e ∧
        0 ≤ e - s ∧ d = ⟨b.start_ms, e - s⟩ := by
  rw [deltasInterp, List.mem_filterMap]
  constructor
  · rintro ⟨b, hb, hf⟩
    rcases hh : interpolate_kwh_at_time readings b.start_ms with _ | s
    · simp [hh] at hf
    rcases hl : interpolate_kwh_at_time readings b.end_ms with _ | e
    · simp [hh, hl] at hf
    rw [hh, hl] at hf
    simp only at hf
    split at hf
    · exact ⟨b, hb, s, e, hh, hl, by assumption, (Option.some_inj.mp hf).symm⟩
    · exact absurd hf (by simp)
  · rintro ⟨b, hb, s, e, hh, hl, hnn, rfl⟩
    refine ⟨b, hb, ?_⟩
    rw [hh, hl]
    simp only
    rw [if_pos hnn]

theorem deltasFirstLast_nonneg (readings : List ERow) (buckets : List Bucket) :
    ∀ d ∈ deltasFirstLast readings buckets, 0 ≤ d.energy_kwh := by
  intro d hd
  obtain ⟨b, _, f, l, _, _, hnn, rfl⟩ := mem_deltasFirstLast.mp hd
  exact hnn

theorem deltasInterp_nonneg (readings : List ERow) (buckets : List Bucket) :
    ∀ d ∈ deltasInterp readings buckets, 0 ≤ d.energy_kwh := by
  intro d hd
  obtain ⟨b, _, s, e, _, _, hnn, rfl⟩ := mem_deltasInterp.mp hd
  exact hnn

theorem calc_without_nonneg (rs : List ERow) (aggregation : String) (t0 t1 : Int) :
    ∀ d ∈ calc_energy_deltas_without_interpolation rs aggregation t0 t1,
      0 ≤ d.energy_kwh := by
  intro d hd
  rw [calc_energy_deltas_without_interpolation] at hd
  split at hd
  · simp at hd
  · exact deltasFirstLast_nonneg _ _ d hd

theorem calc_with_nonneg (rs : List ERow) (aggregation : String) (t0 t1 : Int) :
    ∀ d ∈ calc_energy_deltas_with_interpolation rs aggregation t0 t1,
      0 ≤ d.energy_kwh := by
  intro d hd
  rw [calc_energy_deltas_with_interpolation] at hd
  split at hd
  · simp at hd
  · exact deltasInterp_nonneg _ _ d hd

theorem deltas_route_nonneg (t0 t1 : Int) (rs : List ERow) (app : String)
    (l : List DRow)
    (hl : l = if app ≠ "none" ∧ 2 ≤ rs.length then
        (if strEndsWith app "min" then
          calc_energy_deltas_with_interpolation rs app t0 t1
        else calc_energy_deltas_without_interpolation rs app t0 t1)
      else []) :
    ∀ d ∈ l, 0 ≤ d.energy_kwh := by
  subst hl
  intro d hd
  by_cases hc : app ≠ "none" ∧ 2 ≤ rs.length
  · rw [if_pos hc] at hd
    by_cases hm : strEndsWith app "min" = true
    · rw [if_pos hm] at hd
      exact calc_with_nonneg _ _ _ _ d hd
    · rw [if_neg hm] at hd
      exact calc_without_nonneg _ _ _ _ d hd
  · rw [if_neg hc] at hd
    simp at hd

theorem get_energy_aggregated_nonneg (table : List ERow) (meter_id : String)
    (t0 t1 : Int) (phase aggregation : String) :
    ∀ d ∈ (get_energy_aggregated table meter_id t0 t1 phase aggregation).aggregated,
      0 ≤ d.energy_kwh := by
  exact deltas_route_nonneg t0 t1 (get_energy_readings table meter_id t0 t1 phase)
    (if aggregation = "auto" then
      calculate_optimal_aggregation (get_energy_readings table meter_id t0 t1 phase).length
        (((t1 - t0 : Int) : ℚ) / 1000) 10000
    else aggregation)
    (get_energy_aggregated table meter_id t0 t1 phase aggregation).aggregated rfl

theorem find_ladder_min (q : ℚ) :
    ∀ (l : List (Nat × String)), l.Pairwise (fun a b => a.1 < b.1) →
      ∀ p : Nat × String, l.find? (fun x => decide (q ≤ (x.1 : ℚ))) = some p →
        p ∈ l ∧ q ≤ (p.1 : ℚ) ∧ ∀ r ∈ l, q ≤ (r.1 : ℚ) → p.1 ≤ r.1 := by
  intro l
  induction l with
  | nil => intro _ p hf; simp at hf
  | cons a l ih =>
    intro hl p hf
    rw [List.pairwise_cons] at hl
    by_cases hqa : q ≤ (a.1 : ℚ)
    · rw [List.find?_cons_of_pos _ (by simpa using hqa)] at hf
      obtain rfl := Option.some_inj.mp hf
      refine ⟨List.mem_cons_self a l, hqa, ?_⟩
      intro r hr _
      rcases List.mem_cons.mp hr with rfl | hr
      · exact le_refl _
      · exact le_of_lt (hl.1 r hr)
    · rw [List.find?_cons_of_neg _ (by simpa using hqa)] at hf
      obtain ⟨hm, hq, hmin⟩ := ih hl.2 p hf
      refine ⟨List.mem_cons.mpr (Or.inr hm), hq, ?_⟩
      intro r hr hqr
      rcases List.mem_cons.mp hr with rfl | hr
      · exact absurd hqr hqa
      · exact hmin r hr hqr

/-! ## Claims -/

/-- **C1**: with resolution `auto`, a row count of at most 10000 collapses the
resolution to `none`; otherwise the applied resolution is the smallest ladder
member whose width in minutes is at least `idealMinutes = spanMinutes / 10000`,
and `1month` when no member qualifies.  Energy queries apply the same selection
to the energy row count, and historical reading queries to the reading count. -/
theorem claim_C1_auto_resolution (count : Nat) (span_seconds : ℚ) :
    (count ≤ 10000 → calculate_optimal_aggregation count span_seconds 10000 = "none") ∧
    (10000 < count →
      (∃ p ∈ niceLadder, span_seconds / 60 / 10000 ≤ (p.1 : ℚ) ∧
        calculate_optimal_aggregation count span_seconds 10000 = p.2 ∧
        ∀ r ∈ niceLadder, span_seconds / 60 / 10000 ≤ (r.1 : ℚ) → p.1 ≤ r.1) ∨
      ((∀ r ∈ niceLadder, (r.1 : ℚ) < span_seconds / 60 / 10000) ∧
        calculate_optimal_aggregation count span_seconds 10000 = "1month")) ∧
    (∀ (table : List ERow) (meter_id phase : String) (t0 t1 : Int),
      (get_energy_aggregated table meter_id t0 t1 phase "auto").aggregation_applied =
        calculate_optimal_aggregation (get_energy_readings table meter_id t0 t1 phase).length
          (((t1 - t0 : Int) : ℚ) / 1000) 10000) ∧
    (∀ (table : List Reading) (meter_id : String) (t0 t1 : Int) (lim : Option Nat),
      (get_historical_readings table meter_id t0 t1 lim "auto").aggregation_applied =
        calculate_optimal_aggregation (get_reading_count table meter_id t0 t1)
          (((t1 - t0 : Int) : ℚ) / 1000) 10000) := by
  refine ⟨?_, ?_, ?_, ?_⟩
  · intro h
    rw [calculate_optimal_aggregation, if_pos h]
  · intro h
    simp only [calculate_optimal_aggregation, if_neg (Nat.not_le.mpr h), Nat.cast_ofNat]
    rcases hf : niceLadder.find?
        (fun p => decide (span_seconds / 60 / 10000 ≤ (p.1 : ℚ))) with _ | p
    · right
      refine ⟨?_, by rw [hf]⟩
      intro r hr
      have := List.find?_eq_none.mp hf r hr
      simpa using this
    · left
      have hs : niceLadder.Pairwise (fun a b : Nat × String => a.1 < b.1) := by decide
      obtain ⟨hm, hq, hmin⟩ := find_ladder_min _ niceLadder hs p hf
      exact ⟨p, hm, hq, by rw [hf], hmin⟩
  · intro table meter_id phase t0 t1
    rfl
  · intro table meter_id t0 t1 lim
    rfl

/-- Witness for C1: 5000 rows collapse to `none`; 20000 rows over a
6000000-second span (ideal 10 minutes) select `10min`. -/
theorem claim_C1_auto_resolution_witness :
    calculate_optimal_aggregation 5000 6000000 10000 = "none" ∧
    calculate_optimal_aggregation 20000 6000000 10000 = "10min" := by
  constructor
  · exact (claim_C1_auto_resolution 5000 6000000).1 (by norm_num)
  · rcases (claim_C1_auto_resolution 20000 6000000).2.1 (by norm_num) with
      ⟨p, hm, hq, hres, hmin⟩ | ⟨hall, _⟩
    · have h10 : ((10 : Nat), "10min") ∈ niceLadder := by decide
      have hq10 : (6000000 : ℚ) / 60 / 10000 ≤ (((10 : Nat) : Nat) : ℚ) := by norm_num
      have hle : p.1 ≤ 10 := hmin ((10 : Nat), "10min") h10 hq10
      have h10le : (10 : ℚ) ≤ (p.1 : ℚ) := by
        have hideal : (6000000 : ℚ) / 60 / 10000 = 10 := by norm_num
        rw [hideal] at hq
        exact hq
      have hge : 10 ≤ p.1 := by exact_mod_cast h10le
      have hp1 : p.1 = 10 := by omega
      have hname : ∀ q ∈ niceLadder, q.1 = 10 → q.2 = "10min" := by decide
      rw [hres, hname p hm hp1]
    · exfalso
      have h43200 := hall ((43200 : Nat), "1month") (by decide)
      norm_num at h43200

/-- **C2**: at every non-`none` resolution every returned energy bucket delta
is non-negative (negative deltas — counter resets — are dropped, not
surfaced); on a concrete synthetic series with one reset, the reset's bucket
(start 120000) is absent from the output while the no-reset twin series keeps
all five buckets. -/
theorem claim_C2_nonnegative_deltas :
    (∀ (readings : List ERow) (buckets : List Bucket),
      ∀ d ∈ deltasFirstLast readings buckets, 0 ≤ d.energy_kwh) ∧
    (∀ (readings : List ERow) (buckets : List Bucket),
      ∀ d ∈ deltasInterp readings buckets, 0 ≤ d.energy_kwh) ∧
    (∀ (table : List ERow) (meter_id : String) (t0 t1 : Int) (phase aggregation : String),
      ∀ d ∈ (get_energy_aggregated table meter_id t0 t1 phase aggregation).aggregated,
        0 ≤ d.energy_kwh) ∧
    (calc_energy_deltas_with_interpolation c2_reset_series "1min" 0 240000).map DRow.ts_ms
      = [0, 60000, 180000, 240000] ∧
    (calc_energy_deltas_with_interpolation c2_no_reset_series "1min" 0 240000).map DRow.ts_ms
      = [0, 60000, 120000, 180000, 240000] := by
  refine ⟨deltasFirstLast_nonneg, deltasInterp_nonneg, get_energy_aggregated_nonneg, ?_, ?_⟩
  · have hp : parseAggInterp "1min" = some (Agg.min 1) := by decide
    have hb : bucketsFor (Agg.min 1) 0 240000 =
        [⟨0, 60000⟩, ⟨60000, 120000⟩, ⟨120000, 180000⟩, ⟨180000, 240000⟩,
         ⟨240000, 300000⟩] := by decide
    have hs : sortAscByKey (fun r : ERow => r.time_ms) c2_reset_series = c2_reset_series := by
      decide
    have hlen : c2_reset_series.length = 5 := by decide
    have h0 : interpolate_kwh_at_time c2_reset_series 0 = some 0 := by decide
    have h1 : interpolate_kwh_at_time c2_reset_series 60000 = some 1 := by decide
    have h2 : interpolate_kwh_at_time c2_reset_series 120000 = some 2 := by decide
    have h3 : interpolate_kwh_at_time c2_reset_series 180000 = some 0 := by decide
    have h4 : interpolate_kwh_at_time c2_reset_series 240000 = some 1 := by decide
    have h5 : interpolate_kwh_at_time c2_reset_series 300000 = some 1 := by decide
    norm_num [calc_energy_deltas_with_interpolation, hs, hp, hb, hlen, deltasInterp,
      h0, h1, h2, h3, h4, h5, List.filterMap_cons, List.filterMap_nil]
  · have hp : parseAggInterp "1min" = some (Agg.min 1) := by decide
    have hb : bucketsFor (Agg.min 1) 0 240000 =
        [⟨0, 60000⟩, ⟨60000, 120000⟩, ⟨120000, 180000⟩, ⟨180000, 240000⟩,
         ⟨240000, 300000⟩] := by decide
    have hs : sortAscByKey (fun r : ERow => r.time_ms) c2_no_reset_series
        = c2_no_reset_series := by decide
    have hlen : c2_no_reset_series.length = 5 := by decide
    have h0 : interpolate_kwh_at_time c2_no_reset_series 0 = some 0 := by decide
    have h1 : interpolate_kwh_at_time c2_no_reset_series 60000 = some 1 := by decide
    have h2 : interpolate_kwh_at_time c2_no_reset_series 120000 = some 2 := by decide
    have h3 : interpolate_kwh_at_time c2_no_reset_series 180000 = some 3 := by decide
    have h4 : interpolate_kwh_at_time c2_no_reset_series 240000 = some 4 := by decide
    have h5 : interpolate_kwh_at_time c2_no_reset_series 300000 = some 4 := by decide
    norm_num [calc_energy_deltas_with_interpolation, hs, hp, hb, hlen, deltasInterp,
      h0, h1, h2, h3, h4, h5, List.filterMap_cons, List.filterMap_nil]

/-- Witness for C2: the delta list of the reset series is reached through
`get_energy_aggregated`, and its first bucket is non-negative by the claim. -/
theorem claim_C2_nonnegative_deltas_witness :
    DRow.mk 0 1 ∈ (get_energy_aggregated c2_reset_series "m" 0 240000 "ALL" "1min").aggregated ∧
    (0 : ℚ) ≤ (DRow.mk 0 1).energy_kwh := by
  have hraw : get_energy_readings c2_reset_series "m" 0 240000 "ALL" = c2_reset_series := by
    decide
  have hsw : strEndsWith "1min" "min" = true := by decide
  have hne1 : ("1min" = "auto") = False := by decide
  have hne2 : ("1min" = "none") = False := by decide
  have hp : parseAggInterp "1min" = some (Agg.min 1) := by decide
  have hb : bucketsFor (Agg.min 1) 0 240000 =
      [⟨0, 60000⟩, ⟨60000, 120000⟩, ⟨120000, 180000⟩, ⟨180000, 240000⟩,
       ⟨240000, 300000⟩] := by decide
  have hs : sortAscByKey (fun r : ERow => r.time_ms) c2_reset_series = c2_reset_series := by
    decide
  have hlen : c2_reset_series.length = 5 := by decide
  have h0 : interpolate_kwh_at_time c2_reset_series 0 = some 0 := by decide
  have h1 : interpolate_kwh_at_time c2_reset_series 60000 = some 1 := by decide
  have h2 : interpolate_kwh_at_time c2_reset_series 120000 = some 2 := by decide
  have h3 : interpolate_kwh_at_time c2_reset_series 180000 = some 0 := by decide
  have h4 : interpolate_kwh_at_time c2_reset_series 240000 = some 1 := by decide
  have h5 : interpolate_kwh_at_time c2_reset_series 300000 = some 1 := by decide
  have hm : DRow.mk 0 1 ∈
      (get_energy_aggregated c2_reset_series "m" 0 240000 "ALL" "1min").aggregated := by
    norm_num [get_energy_aggregated, hraw, hsw, calc_energy_deltas_with_interpolation,
      hs, hp, hb, hlen, hne1, hne2, deltasInterp, h0, h1, h2, h3, h4, h5,
      List.filterMap_cons, List.filterMap_nil]
  exact ⟨hm, claim_C2_nonnegative_deltas.2.2.1 c2_reset_series "m" 0 240000 "ALL" "1min"
    (DRow.mk 0 1) hm⟩

/-- **C7**: a failure below the threshold sleeps the normal interval and
increments the counter; the fifth consecutive failure sleeps the fixed backoff
(30 s instantaneous, 60 s energy) and resets the counter to zero; a success at
any counter value resets it and sleeps the normal interval.  Running five
consecutive failures from a zero counter produces four normal sleeps, then the
backoff sleep, ending with the counter reset. -/
theorem claim_C7_backoff (interval : ℚ) (failures : Nat) :
    (failures + 1 < 5 →
      meter_poll_iteration interval failures false = (failures + 1, interval) ∧
      energy_poll_iteration interval failures false = (failures + 1, interval)) ∧
    meter_poll_iteration interval 4 false = (0, 30) ∧
    energy_poll_iteration interval 4 false = (0, 60) ∧
    meter_poll_iteration interval failures true = (0, interval) ∧
    energy_poll_iteration interval failures true = (0, interval) ∧
    poll_run (meter_poll_iteration interval) 0 [false, false, false, false, false] =
      (0, [interval, interval, interval, interval, 30]) ∧
    poll_run (energy_poll_iteration interval) 0 [false, false, false, false, false] =
      (0, [interval, interval, interval, interval, 60]) := by
  refine ⟨?_, ?_, ?_, ?_, ?_, ?_, ?_⟩
  · intro h
    constructor <;>
      simp [meter_poll_iteration, energy_poll_iteration, poll_iteration, Nat.not_le.mpr h]
  all_goals
    simp [meter_poll_iteration, energy_poll_iteration, poll_iteration, poll_run]

/-- Witness for C7 at a concrete interval and counter. -/
theorem claim_C7_backoff_witness :
    meter_poll_iteration 1 2 false = (3, 1) ∧
    poll_run (energy_poll_iteration 7) 0 [false, false, false, false, false] =
      (0, [7, 7, 7, 7, 60]) := by
  exact ⟨((claim_C7_backoff 1 2).1 (by norm_num)).1,
    (claim_C7_backoff 7 0).2.2.2.2.2.2⟩

/-- **C10**: re-registering an existing meter id rewrites only `ip_address`
and `last_seen`; `name`, `location`, `enabled`, `poll_interval` and
`energy_poll_interval` keep their stored values, no row is added, and rows of
other meters are untouched. -/
theorem claim_C10_register_frame (meters : List MeterRow) (m : MeterRow)
    (hex : ∃ r ∈ meters, r.meter_id = m.meter_id) :
    register_meter meters m =
      meters.map (fun x =>
        if x.meter_id = m.meter_id then
          { x with ip_address := m.ip_address, last_seen := m.last_seen }
        else x) ∧
    (register_meter meters m).length = meters.length ∧
    ∀ x ∈ meters, ∃ y ∈ register_meter meters m,
      y.name = x.name ∧ y.location = x.location ∧ y.enabled = x.enabled ∧
      y.poll_interval = x.poll_interval ∧
      y.energy_poll_interval = x.energy_poll_interval ∧
      y.meter_id = x.meter_id ∧
      (x.meter_id = m.meter_id → y.ip_address = m.ip_address ∧ y.last_seen = m.last_seen) ∧
      (¬ x.meter_id = m.meter_id → y = x) := by
  obtain ⟨r, hr, hid⟩ := hex
  have hany : (meters.any (fun x => decide (x.meter_id = m.meter_id))) = true :=
    List.any_eq_true.mpr ⟨r, hr, by simp [hid]⟩
  have heq : register_meter meters m =
      meters.map (fun x =>
        if x.meter_id = m.meter_id then
          { x with ip_address := m.ip_address, last_seen := m.last_seen }
        else x) := by
    rw [register_meter, if_pos hany]
  refine ⟨heq, by rw [heq, List.length_map], ?_⟩
  intro x hx
  refine ⟨(fun x =>
      if x.meter_id = m.meter_id then
        { x with ip_address := m.ip_address, last_seen := m.last_seen }
      else x) x, ?_, ?_⟩
  · rw [heq]
    exact List.mem_map_of_mem _ hx
  · by_cases hxm : x.meter_id = m.meter_id <;> simp [hxm]

/-- Witness for C10 on a concrete table. -/
theorem claim_C10_register_frame_witness :
    register_meter
        [MeterRow.mk "a" "1.1.1.1" (some "n") none true 1 30 5]
        (MeterRow.mk "a" "2.2.2.2" none none false 9 99 77) =
      [MeterRow.mk "a" "2.2.2.2" (some "n") none true 1 30 77] := by
  have h := (claim_C10_register_frame
    [MeterRow.mk "a" "1.1.1.1" (some "n") none true 1 30 5]
    (MeterRow.mk "a" "2.2.2.2" none none false 9 99 77)
    ⟨MeterRow.mk "a" "1.1.1.1" (some "n") none true 1 30 5, by decide, by decide⟩).1
  rw [h]
  decide

/-- **C8**: the raw total reported by an energy query is the last raw sample's
cumulative value minus the first's over the whole range, with no
non-negativity filter (so it can be negative across a counter reset). -/
theorem claim_C8_raw_total (table : List ERow) (meter_id : String) (t0 t1 : Int)
    (phase aggregation : String)
    (h2 : 2 ≤ (get_energy_readings table meter_id t0 t1 phase).length) :
    (get_energy_aggregated table meter_id t0 t1 phase aggregation).raw_total_kwh =
      ((get_energy_readings table meter_id t0 t1 phase).getLast?.getD default).total_kwh -
      ((get_energy_readings table meter_id t0 t1 phase).head?.getD default).total_kwh := by
  simp [get_energy_aggregated, h2]

/-- Witness for C8: a range containing a counter reset yields a negative raw
total. -/
theorem claim_C8_raw_total_witness :
    (get_energy_aggregated c8_table "m" 0 240000 "ALL" "1hour").raw_total_kwh = -2 ∧
    (get_energy_aggregated c8_table "m" 0 240000 "ALL" "1hour").raw_total_kwh < 0 := by
  have h := claim_C8_raw_total c8_table "m" 0 240000 "ALL" "1hour" (by decide)
  have hraw : get_energy_readings c8_table "m" 0 240000 "ALL" = c8_table := by decide
  rw [h, hraw]
  norm_num [c8_table]

/-- **C6 (code bug)**: running the compaction on a (meter, hour) group with two
raw rows does **not** replace it with one averaged row at that hour.  The
`INSERT` stamps the averaged row with
`strftime('%Y-%m-%d %H:00:00', t) + hour(t) hours`, which adds the hour-of-day
twice: the group of hour 13:00 (46800000 ms) produces a row at 02:00 of the
next day (93600000 ms).  The `DELETE` then keeps `MAX(id)` per (meter, hour)
group — which in the 13:00 group is the *raw* row id 2, not the averaged row —
so a raw row survives, its sibling id 1 is deleted, and no row at all remains
at the group's own hour with the group's averages. -/
theorem claim_C6_code_bug_eval :
    (aggregate_old_data c6_table 1000000000 1).map (fun r => (r.id, r.time_ms))
      = [(2, 48600000), (3, 93600000)] ∧
    RRow.mk 2 48600000 "m" 20 0 0 0 0 0 0 ∈ aggregate_old_data c6_table 1000000000 1 := by
  exact ⟨by decide, by decide⟩

theorem sorted_getD_lt {a : List Int} (hs : a.Pairwise (· ≤ ·)) {i j : Nat}
    (hij : i < j) (hj : j < a.length) : a.getD i 0 ≤ a.getD j 0 := by
  rw [List.getD_eq_getElem a 0 (lt_trans hij hj), List.getD_eq_getElem a 0 hj]
  exact List.pairwise_iff_getElem.mp hs i j (lt_trans hij hj) hj hij

theorem bisectLoop_spec (a : List Int) (x : Int) (hs : a.Pairwise (· ≤ ·)) :
    ∀ (fuel lo hi : Nat), lo ≤ hi → hi ≤ a.length → hi - lo ≤ fuel →
      (∀ i, i < lo → a.getD i 0 < x) →
      (∀ i, hi ≤ i → i < a.length → x ≤ a.getD i 0) →
      (∀ i, i < bisectLoop a x lo hi fuel → a.getD i 0 < x) ∧
      (∀ i, bisectLoop a x lo hi fuel ≤ i → i < a.length → x ≤ a.getD i 0) ∧
      lo ≤ bisectLoop a x lo hi fuel ∧ bisectLoop a x lo hi fuel ≤ hi := by
  intro fuel
  induction fuel with
  | zero =>
    intro lo hi hlohi hhi hfuel hlow hhigh
    simp only [bisectLoop]
    refine ⟨hlow, ?_, le_refl _, by omega⟩
    intro i h1 h2
    exact hhigh i (by omega) h2
  | succ fuel ih =>
    intro lo hi hlohi hhi hfuel hlow hhigh
    rw [bisectLoop]
    split
    · rename_i hlt
      split
      · rename_i hmid
        have hlow2 : ∀ i, i < (lo + hi) / 2 + 1 → a.getD i 0 < x := by
          intro i hi2
          rcases Nat.lt_or_ge i lo with hil | hil
          · exact hlow i hil
          · rcases Nat.eq_or_lt_of_le (show i ≤ (lo + hi) / 2 by omega) with he | hlt2
            · rw [he]
              exact hmid
            · exact lt_of_le_of_lt (sorted_getD_lt hs hlt2 (by omega)) hmid
        have h := ih ((lo + hi) / 2 + 1) hi (by omega) hhi (by omega) hlow2 hhigh
        exact ⟨h.1, h.2.1, le_trans (by omega) h.2.2.1, h.2.2.2⟩
      · rename_i hmid
        have hhigh2 : ∀ i, (lo + hi) / 2 ≤ i → i < a.length → x ≤ a.getD i 0 := by
          intro i h1 h2
          rcases Nat.eq_or_lt_of_le h1 with he | hlt2
          · rw [← he]
            exact le_of_not_lt hmid
          · exact le_trans (le_of_not_lt hmid) (sorted_getD_lt hs hlt2 h2)
        have h := ih lo ((lo + hi) / 2) (by omega) (by omega) (by omega) hlow hhigh2
        exact ⟨h.1, h.2.1, h.2.2.1, le_trans h.2.2.2 (by omega)⟩
    · rename_i hge
      refine ⟨hlow, ?_, le_refl _, hlohi⟩
      intro i h1 h2
      exact hhigh i (by omega) h2

theorem bisect_left_spec (a : List Int) (x : Int) (hs : a.Pairwise (· ≤ ·)) :
    (∀ i, i < bisect_left a x → a.getD i 0 < x) ∧
    (∀ i, bisect_left a x ≤ i → i < a.length → x ≤ a.getD i 0) ∧
    bisect_left a x ≤ a.length := by
  have h := bisectLoop_spec a x hs a.length 0 a.length (by omega) (le_refl _) (by omega)
    (by intro i h; omega) (by intro i h1 h2; omega)
  exact ⟨h.1, h.2.1, h.2.2.2⟩

theorem bisect_left_eq (a : List Int) (x : Int) (hs : a.Pairwise (· ≤ ·)) (r : Nat)
    (hr : r ≤ a.length) (hlow : ∀ i, i < r → a.getD i 0 < x)
    (hhigh : ∀ i, r ≤ i → i < a.length → x ≤ a.getD i 0) :
    bisect_left a x = r := by
  have h := bisect_left_spec a x hs
  by_contra hne
  rcases Nat.lt_or_ge (bisect_left a x) r with hlt | hge
  · have h1 := hlow _ hlt
    have h2 := h.2.1 _ (le_refl _) (by omega)
    omega
  · have hlt2 : r < bisect_left a x := by omega
    have h1 := h.1 _ hlt2
    have h2 := hhigh r (le_refl _) (by omega)
    omega

theorem times_getD (rs : List ERow) (i : Nat) (hi : i < rs.length) :
    (rs.map (fun r => r.time_ms)).getD i 0 = (rs.getD i default).time_ms := by
  rw [List.getD_eq_getElem _ _ (by simpa using hi), List.getD_eq_getElem _ _ hi]
  simp

theorem head_eq_getD (rs : List ERow) (hne : rs ≠ []) :
    rs.head hne = rs.getD 0 default := by
  cases rs with
  | nil => exact absurd rfl hne
  | cons a l => rfl

theorem getLast_eq_getD (rs : List ERow) (hne : rs ≠ []) :
    rs.getLast hne = rs.getD (rs.length - 1) default := by
  have hn : 0 < rs.length := List.length_pos.mpr hne
  rw [List.getLast_eq_getElem, List.getD_eq_getElem _ _ (by omega)]

theorem interpolate_eval (rs : List ERow) (x : Int) (hne : rs ≠ []) (r : Nat)
    (hbis : bisect_left (rs.map (fun r => r.time_ms)) x = r) :
    interpolate_kwh_at_time rs x =
      (if r < rs.length ∧ (rs.map (fun r => r.time_ms)).getD r 0 = x then
        some ((rs.getD r default).total_kwh)
      else if r = 0 then some ((rs.getD 0 default).total_kwh)
      else if rs.length ≤ r then some ((rs.getLast?.getD default).total_kwh)
      else if ((rs.getD r default).time_ms - (rs.getD (r - 1) default).time_ms) = 0 then
        some ((rs.getD (r - 1) default).total_kwh)
      else
        some ((rs.getD (r - 1) default).total_kwh +
          ((rs.getD r default).total_kwh - (rs.getD (r - 1) default).total_kwh) *
          (((x - (rs.getD (r - 1) default).time_ms : Int) : ℚ) /
            (((rs.getD r default).time_ms - (rs.getD (r - 1) default).time_ms : Int) : ℚ)))) := by
  rw [interpolate_kwh_at_time]
  rw [if_neg (by simp [List.isEmpty_iff, hne])]
  simp only [hbis]

/-- **C5**: on a non-empty strictly time-sorted reading list, the interpolated
counter value at a boundary is clamped to the first reading's value before the
range and the last reading's value after it, is the linear interpolation
between the bracketing pair inside the range, and every minute-resolution
bucket delta equals interpolated(end) minus interpolated(start). -/
theorem claim_C5_interpolation (rs : List ERow) (target : Int)
    (hss : rs.Pairwise (fun p q => p.time_ms < q.time_ms)) (hne : rs ≠ []) :
    (target ≤ (rs.head hne).time_ms →
      interpolate_kwh_at_time rs target = some ((rs.head hne).total_kwh)) ∧
    ((rs.getLast hne).time_ms ≤ target →
      interpolate_kwh_at_time rs target = some ((rs.getLast hne).total_kwh)) ∧
    (∀ i : Nat, i + 1 < rs.length →
      (rs.getD i default).time_ms ≤ target →
      target ≤ (rs.getD (i + 1) default).time_ms →
      interpolate_kwh_at_time rs target = some
        ((rs.getD i default).total_kwh +
          ((rs.getD (i + 1) default).total_kwh - (rs.getD i default).total_kwh) *
          (((target - (rs.getD i default).time_ms : Int) : ℚ) /
            (((rs.getD (i + 1) default).time_ms - (rs.getD i default).time_ms : Int) : ℚ)))) ∧
    (∀ (ag : String) (t0 t1 : Int) (a : Agg), parseAggInterp ag = some a →
      ∀ d ∈ calc_energy_deltas_with_interpolation rs ag t0 t1,
        ∃ b ∈ bucketsFor a t0 t1, d.ts_ms = b.start_ms ∧
          ∃ sv ev : ℚ, interpolate_kwh_at_time rs b.start_ms = some sv ∧
            interpolate_kwh_at_time rs b.end_ms = some ev ∧ d.energy_kwh = ev - sv) := by
  have hn : 0 < rs.length := List.length_pos.mpr hne
  have htsorted : (rs.map (fun r => r.time_ms)).Pairwise (· ≤ ·) := by
    rw [List.pairwise_map]
    exact hss.imp (fun h => le_of_lt h)
  have hlenmap : (rs.map (fun r => r.time_ms)).length = rs.length := by simp
  have hstrict : ∀ i j, i < j → j < rs.length →
      (rs.getD i default).time_ms < (rs.getD j default).time_ms := by
    intro i j hij hj
    rw [List.getD_eq_getElem _ _ (lt_trans hij hj), List.getD_eq_getElem _ _ hj]
    exact List.pairwise_iff_getElem.mp hss i j (lt_trans hij hj) hj hij
  refine ⟨?_, ?_, ?_, ?_⟩
  · -- clamp before the first sample
    intro h
    rw [head_eq_getD rs hne] at h ⊢
    have hbis : bisect_left (rs.map (fun r => r.time_ms)) target = 0 := by
      apply bisect_left_eq _ _ htsorted 0 (by omega)
      · intro i hi0
        omega
      · intro i h0 hilen
        rw [hlenmap] at hilen
        rw [times_getD rs i hilen]
        rcases Nat.eq_zero_or_pos i with rfl | hipos
        · exact h
        · exact le_trans h (le_of_lt (hstrict 0 i hipos hilen))
    rw [interpolate_eval rs target hne 0 hbis]
    by_cases hex : (rs.map (fun r => r.time_ms)).getD 0 0 = target
    · rw [if_pos ⟨hn, hex⟩]
    · rw [if_neg (fun hc => hex hc.2), if_pos rfl]
  · -- clamp after the last sample
    intro h
    rw [getLast_eq_getD rs hne] at h ⊢
    rcases eq_or_lt_of_le h with he | hlt
    · -- target is exactly the last sample's time
      have hbis : bisect_left (rs.map (fun r => r.time_ms)) target = rs.length - 1 := by
        apply bisect_left_eq _ _ htsorted _ (by omega)
        · intro i hi0
          rw [times_getD rs i (by omega)]
          calc (rs.getD i default).time_ms
              < (rs.getD (rs.length - 1) default).time_ms := hstrict i _ (by omega) (by omega)
            _ = target := he
        · intro i h0 hilen
          rw [hlenmap] at hilen
          rw [times_getD rs i hilen]
          have hieq : i = rs.length - 1 := by omega
          rw [hieq, ← he]
      rw [interpolate_eval rs target hne _ hbis]
      rw [if_pos ⟨by omega, by rw [times_getD rs _ (by omega)]; exact he⟩]
    · -- target is strictly after the last sample
      have hbis : bisect_left (rs.map (fun r => r.time_ms)) target = rs.length := by
        apply bisect_left_eq _ _ htsorted _ (by omega)
        · intro i hi0
          rw [times_getD rs i hi0]
          rcases Nat.eq_or_lt_of_le (show i ≤ rs.length - 1 by omega) with he2 | hlt2
          · rw [he2]
            exact hlt
          · exact lt_trans (hstrict i _ hlt2 (by omega)) hlt
        · intro i h0 hilen
          rw [hlenmap] at hilen
          omega
      rw [interpolate_eval rs target hne _ hbis]
      rw [if_neg (fun hc => by omega), if_neg (by omega), if_pos (le_refl _)]
      rw [List.getLast?_eq_getLast rs hne]
      rw [getLast_eq_getD rs hne]
      rfl
  · -- interior: linear interpolation between the bracketing pair
    intro i hi1 hlo hhi
    rcases eq_or_lt_of_le hlo with he | hltlo
    · -- target equals the left endpoint
      have hbis : bisect_left (rs.map (fun r => r.time_ms)) target = i := by
        apply bisect_left_eq _ _ htsorted _ (by omega)
        · intro j hj
          rw [times_getD rs j (by omega)]
          calc (rs.getD j default).time_ms
              < (rs.getD i default).time_ms := hstrict j i hj (by omega)
            _ = target := he
        · intro j hij hjlen
          rw [hlenmap] at hjlen
          rw [times_getD rs j hjlen]
          rcases Nat.eq_or_lt_of_le hij with he2 | hlt2
          · rw [← he2, ← he]
          · rw [← he]
            exact le_of_lt (hstrict i j hlt2 hjlen)
      rw [interpolate_eval rs target hne _ hbis]
      rw [if_pos ⟨by omega, by rw [times_getD rs i (by omega)]; exact he⟩]
      have hz : ((target - (rs.getD i default).time_ms : Int) : ℚ) = 0 := by
        rw [← he, sub_self, Int.cast_zero]
      rw [hz, zero_div, mul_zero, add_zero]
    · rcases eq_or_lt_of_le hhi with he | hlthi
      · -- target equals the right endpoint
        have hbis : bisect_left (rs.map (fun r => r.time_ms)) target = i + 1 := by
          apply bisect_left_eq _ _ htsorted _ (by omega)
          · intro j hj
            rw [times_getD rs j (by omega)]
            rcases Nat.eq_or_lt_of_le (show j ≤ i by omega) with he2 | hlt2
            · rw [he2]
              exact hltlo
            · exact lt_trans (hstrict j i hlt2 (by omega)) hltlo
          · intro j hij hjlen
            rw [hlenmap] at hjlen
            rw [times_getD rs j hjlen]
            rcases Nat.eq_or_lt_of_le hij with he2 | hlt2
            · rw [← he2, he]
            · rw [he]
              exact le_of_lt (hstrict (i + 1) j hlt2 hjlen)
        rw [interpolate_eval rs target hne _ hbis]
        rw [if_pos ⟨by omega, by rw [times_getD rs (i + 1) (by omega)]; exact he.symm⟩]
        have hdne : (((rs.getD (i + 1) default).time_ms -
            (rs.getD i default).time_ms : Int) : ℚ) ≠ 0 := by
          have := hstrict i (i + 1) (by omega) (by omega)
          exact_mod_cast (by omega : ((rs.getD (i + 1) default).time_ms -
            (rs.getD i default).time_ms : Int) ≠ 0)
        have hnum : ((target - (rs.getD i default).time_ms : Int) : ℚ) =
            (((rs.getD (i + 1) default).time_ms - (rs.getD i default).time_ms : Int) : ℚ) := by
          rw [he]
        rw [hnum, div_self hdne, mul_one]
        congr 1
        ring
      · -- target strictly between the pair
        have hbis : bisect_left (rs.map (fun r => r.time_ms)) target = i + 1 := by
          apply bisect_left_eq _ _ htsorted _ (by omega)
          · intro j hj
            rw [times_getD rs j (by omega)]
            rcases Nat.eq_or_lt_of_le (show j ≤ i by omega) with he2 | hlt2
            · rw [he2]
              exact hltlo
            · exact lt_trans (hstrict j i hlt2 (by omega)) hltlo
          · intro j hij hjlen
            rw [hlenmap] at hjlen
            rw [times_getD rs j hjlen]
            rcases Nat.eq_or_lt_of_le hij with he2 | hlt2
            · rw [← he2]
              exact le_of_lt hlthi
            · exact le_trans (le_of_lt hlthi) (le_of_lt (hstrict (i + 1) j hlt2 hjlen))
        rw [interpolate_eval rs target hne _ hbis]
        rw [if_neg ?_, if_neg (by omega), if_neg (by omega), if_neg ?_]
        · simp only [Nat.add_sub_cancel]
        · simp only [Nat.add_sub_cancel]
          have := hstrict i (i + 1) (by omega) (by omega)
          omega
        · intro hc
          rw [times_getD rs (i + 1) (by omega)] at hc
          omega
  · -- the delta of every emitted minute bucket is interpolated(end) − interpolated(start)
    intro ag t0 t1 a hp d hd
    rw [calc_energy_deltas_with_interpolation] at hd
    split at hd
    · simp at hd
    · have hsorted_eq : sortAscByKey (fun r => r.time_ms) rs = rs :=
        sortAscByKey_eq_self _ _ (hss.imp (fun h => le_of_lt h))
      simp only [hp, hsorted_eq] at hd
      obtain ⟨b, hb, sv, ev, hs1, he1, hnn, rfl⟩ := mem_deltasInterp.mp hd
      exact ⟨b, hb, rfl, sv, ev, hs1, he1, rfl⟩

/-- Witness for C5: interior interpolation at the midpoint of two samples and
clamping on both sides, on a concrete sorted series. -/
theorem claim_C5_interpolation_witness :
    interpolate_kwh_at_time c5_series 30000 = some (1 / 2) ∧
    interpolate_kwh_at_time c5_series (-5000) = some 0 ∧
    interpolate_kwh_at_time c5_series 500000 = some 2 := by
  refine ⟨?_, ?_, ?_⟩
  · have h := (claim_C5_interpolation c5_series 30000 (by decide) (by decide)).2.2.1 0
      (by decide) (by decide) (by decide)
    rw [h]
    norm_num [c5_series]
  · have h := (claim_C5_interpolation c5_series (-5000) (by decide) (by decide)).1
      (by decide)
    rw [h]
    decide
  · have h := (claim_C5_interpolation c5_series 500000 (by decide) (by decide)).2.1
      (by decide)
    rw [h]
    decide

end PowerMonitor
